import Mathlib

/-!
Verification of the pending-transaction broadcast script
(backend/4broadcast_txbtc4.py).  The Python functions are embedded
shallowly: JSON-derived values become the inductive type PyVal, the
network and library effects become an explicit environment, and every
external action is recorded in a trace of events together with the
printed status lines.
-/

set_option autoImplicit false

/-- Values of the JSON-derived Python objects the script handles.  The
pending-record schema uses objects, strings, integers and null; floats
and arrays never occur there and are not modelled.  A dict is a list of
key-value bindings with distinct keys; lookup returns the first
binding. -/
inductive PyVal where
  | vNone : PyVal
  | vBool : Bool → PyVal
  | vInt : Int → PyVal
  | vStr : String → PyVal
  | vDict : List (String × PyVal) → PyVal

/-- Python truthiness for the modelled values. -/
def PyVal.truthy : PyVal → Bool
  | .vNone => false
  | .vBool b => b
  | .vInt n => n != 0
  | .vStr s => !s.isEmpty
  | .vDict l => !l.isEmpty

/-- Lookup of a key in the binding list of a dict (first binding wins;
the dicts produced by json.loads have distinct keys). -/
def lookupField (k : String) : List (String × PyVal) → Option PyVal
  | [] => none
  | (k', v) :: rest => if k = k' then some v else lookupField k rest

/-- Python subscript access d[k] for dicts; none models the exception a
subscript raises on the other values (KeyError or TypeError). -/
def pyLookup (d : PyVal) (k : String) : Option PyVal :=
  match d with
  | .vDict l => lookupField k l
  | _ => none

/-- Python d.get(k): the stored value, or None when the key is absent.
The script only applies it to values that are dicts at that point. -/
def pyGet (d : PyVal) (k : String) : PyVal :=
  (pyLookup d k).getD .vNone

/-- Whether the first list is an initial segment of the second. -/
def listStartsWith : List Char → List Char → Bool
  | [], _ => true
  | _ :: _, [] => false
  | a :: as, b :: bs => a == b && listStartsWith as bs

/-- Whether the first list occurs as a contiguous segment of the second. -/
def listContainsSeg (needle : List Char) : List Char → Bool
  | [] => listStartsWith needle []
  | c :: t => listStartsWith needle (c :: t) || listContainsSeg needle t

/-- The Python operator (key in container) for the container shapes the
validator can meet: key membership for dicts, substring containment for
strings, and a TypeError for the remaining values. -/
def pyIn (key : String) (container : PyVal) : Except String Bool :=
  match container with
  | .vDict l => .ok (lookupField key l).isSome
  | .vStr s => .ok (listContainsSeg key.toList s.toList)
  | _ => .error "TypeError: argument is not a container"

/-- Python str.strip with no argument: whitespace removed from both
ends of the string. -/
def pyStrip (s : String) : String :=
  String.mk (((s.toList.dropWhile Char.isWhitespace).reverse.dropWhile
    Char.isWhitespace).reverse)

/-- Floor of a rational, computed from its numerator and denominator. -/
def ratFloor (q : ℚ) : ℤ := Int.fdiv q.num (q.den : ℤ)

/-- Rounding of a rational to an integer, ties to even: the integer
case of the rounding mode ROUND_HALF_EVEN of the Python decimal
module. -/
def rHalfEven (q : ℚ) : ℤ :=
  let f := ratFloor q
  let r := q - (f : ℚ)
  if r < 1 / 2 then f
  else if 1 / 2 < r then f + 1
  else if f % 2 = 0 then f else f + 1

/-- satoshis_to_btc: the value of Decimal(satoshis) / Decimal(100_000_000)
under the default decimal context of Python, which rounds every result
to 28 significant digits with ROUND_HALF_EVEN.  The model computes the
adjusted exponent of the exact quotient and rounds its coefficient,
which reproduces the resulting numeric value. -/
def satoshis_to_btc (satoshis : ℤ) : ℚ :=
  if satoshis = 0 then 0
  else
    (rHalfEven ((satoshis : ℚ) / 100000000 *
        (10 : ℚ) ^ (27 - ((Nat.log 10 satoshis.natAbs : ℤ) - 8))) : ℚ) *
      (10 : ℚ) ^ (((Nat.log 10 satoshis.natAbs : ℤ) - 8) - 27)

/-- Outcome of the single HTTP POST the raw broadcaster can make: a
response with a status code and a body, or a requests exception
(connectivity, timeout, malformed response). -/
inductive RawHttpOutcome where
  | resp : Nat → String → RawHttpOutcome
  | exn : String → RawHttpOutcome

/-- The external world of one invocation: the outcome of the raw POST
if one is made, whether PrivateKeyTestnet accepts the key material, the
outcome of key.send if it is called, and whether unlink succeeds. -/
structure Env where
  rawOutcome : RawHttpOutcome
  wifOk : Bool
  sendOutcome : Except String String
  unlinkOk : Bool

/-- Observable external actions of the script, in order: the POST of a
raw payload, entry into python_fallback_broadcast with its arguments,
construction of the signing key from the WIF value, a key.send call
with an explicit absolute fee, a key.send call with default fee
estimation, and the unlink attempt on the pending file. -/
inductive Event where
  | rawPost : PyVal → Event
  | fallbackInvoked : PyVal → PyVal → PyVal → Event
  | wifLoad : PyVal → Event
  | sendExplicitFee : List (PyVal × ℚ × String) → PyVal → Event
  | sendDefault : List (PyVal × ℚ × String) → Event
  | unlinkAttempt : Event

/-- Result of running a piece of the script: a value (or an uncaught
exception), the trace of external actions, and the printed lines
(whose decorations and interpolated data are abbreviated). -/
structure RunOut (α : Type) where
  res : α
  events : List Event
  log : List String

/-- One pass of the membership loop of verify_transaction_data: the
printed message for the first missing key, a TypeError from the
membership test, or none missing. -/
def checkKeys (container : PyVal) (msg : String) : List String → Except String (Option String)
  | [] => .ok none
  | k :: rest =>
    match pyIn k container with
    | .error e => .error e
    | .ok false => .ok (some (msg ++ k))
    | .ok true => checkKeys container msg rest

/-- verify_transaction_data: requires the keys transaction,
private_key_wif and address, then from_address, to_address and
amount_sats inside the transaction value; stops at the first missing
key and prints only that one. -/
def verify_transaction_data (tx_data : PyVal) : Except String Bool × List String :=
  match checkKeys tx_data "Missing field: " ["transaction", "private_key_wif", "address"] with
  | .error e => (.error e, [])
  | .ok (some m) => (.ok false, [m])
  | .ok none =>
    match pyLookup tx_data "transaction" with
    | none => (.error "TypeError: transaction value is not subscriptable", [])
    | some tx =>
      match checkKeys tx "Transaction missing: " ["from_address", "to_address", "amount_sats"] with
      | .error e => (.error e, [])
      | .ok (some m) => (.ok false, [m])
      | .ok none => (.ok true, [])

/-- broadcast_raw_transaction: a single POST of the raw payload; a
response with status code exactly 200 yields the stripped body as the
txid, any other status code and any transport exception yield None. -/
def broadcast_raw_transaction (raw_tx_hex : PyVal) (out : RawHttpOutcome) :
    RunOut (Option String) :=
  match out with
  | .resp code body =>
    if code = 200 then
      ⟨some (pyStrip body), [.rawPost raw_tx_hex],
        ["Raw transaction broadcasted TXID: " ++ pyStrip body, "Explorer link"]⟩
    else
      ⟨none, [.rawPost raw_tx_hex],
        ["Broadcast failed: " ++ toString code ++ " " ++ body]⟩
  | .exn e => ⟨none, [.rawPost raw_tx_hex], ["Network error: " ++ e]⟩

/-- Python truthiness of a txid-or-None result: None and the empty
string are falsy. -/
def optTruthy : Option String → Bool
  | none => false
  | some s => !s.isEmpty

/-- python_fallback_broadcast: construct the key from the WIF value
(any failure is caught, printed and turned into None before anything
else happens), build the single output with the amount converted by
satoshis_to_btc, then call key.send with fee and absolute_fee exactly
when fee_sats is truthy, else with default fee estimation; a send
failure is caught and turned into None.  The output construction is
outside every try block, so its failure is an uncaught exception; it is
modelled for integer amounts, the only ones the record schema
produces. -/
def python_fallback_broadcast (transaction wif fee_sats : PyVal) (env : Env) :
    RunOut (Except String (Option String)) :=
  if !env.wifOk then
    ⟨.ok none, [.wifLoad wif], ["Could not load WIF"]⟩
  else
    match pyLookup transaction "to_address", pyLookup transaction "amount_sats" with
    | some dest, some (.vInt amt) =>
      if fee_sats.truthy then
        match env.sendOutcome with
        | .ok txh =>
          ⟨.ok (some txh),
            [.wifLoad wif, .sendExplicitFee [(dest, satoshis_to_btc amt, "btc")] fee_sats],
            ["Broadcasting with explicit fee via bit library",
              "Broadcasted via bit library TXID: " ++ txh]⟩
        | .error e =>
          ⟨.ok none,
            [.wifLoad wif, .sendExplicitFee [(dest, satoshis_to_btc amt, "btc")] fee_sats],
            ["Broadcasting with explicit fee via bit library",
              "Python signing broadcast failed: " ++ e]⟩
      else
        match env.sendOutcome with
        | .ok txh =>
          ⟨.ok (some txh), [.wifLoad wif, .sendDefault [(dest, satoshis_to_btc amt, "btc")]],
            ["Broadcasting via bit library", "Broadcasted via bit library TXID: " ++ txh]⟩
        | .error e =>
          ⟨.ok none, [.wifLoad wif, .sendDefault [(dest, satoshis_to_btc amt, "btc")]],
            ["Broadcasting via bit library", "Python signing broadcast failed: " ++ e]⟩
    | _, _ =>
      ⟨.error "uncaught exception while building the output list", [.wifLoad wif], []⟩

/-- cleanup_pending: attempt to unlink the pending file; any error is
swallowed and only the success message is skipped. -/
def cleanup_pending (env : Env) : RunOut Unit :=
  if env.unlinkOk then ⟨(), [.unlinkAttempt], ["Removed pending file"]⟩
  else ⟨(), [.unlinkAttempt], []⟩

/-- The tail of main from the python-fallback call on: invoke
python_fallback_broadcast, and on a truthy txid clean up and print the
success line, otherwise print the failure line. -/
def mainFallbackPart (tx wif fee : PyVal) (env : Env) : RunOut (Except String Unit) :=
  match python_fallback_broadcast tx wif fee env with
  | ⟨.error e, ev, lg⟩ =>
    ⟨.error e, .fallbackInvoked tx wif fee :: ev,
      "Using Python fallback broadcast" :: lg⟩
  | ⟨.ok r, ev, lg⟩ =>
    if optTruthy r then
      ⟨.ok (), .fallbackInvoked tx wif fee :: (ev ++ (cleanup_pending env).events),
        ("Using Python fallback broadcast" :: lg) ++ (cleanup_pending env).log ++
          ["Transaction successfully broadcasted"]⟩
    else
      ⟨.ok (), .fallbackInvoked tx wif fee :: ev,
        ("Using Python fallback broadcast" :: lg) ++ ["Broadcast failed"]⟩

/-- main, from the point where the pending record has been loaded and
parsed: a falsy record stops, a validation failure stops, the details
block renders the fields and converts the amount (so a non-integer
amount is an uncaught conversion error there), a truthy
raw_transaction_hex value selects the raw path whose truthy txid leads
straight to cleanup, and every other outcome falls through to the
python fallback. -/
def run_main (tx_data : PyVal) (env : Env) : RunOut (Except String Unit) :=
  if !tx_data.truthy then ⟨.ok (), [], []⟩
  else
    match verify_transaction_data tx_data with
    | (.error e, lg) => ⟨.error e, [], lg⟩
    | (.ok false, lg) => ⟨.ok (), [], lg⟩
    | (.ok true, lg) =>
      match pyLookup tx_data "transaction" with
      | none => ⟨.error "TypeError: transaction value is not subscriptable", [], lg⟩
      | some tx =>
        match pyLookup tx "amount_sats" with
        | some (.vInt _) =>
          if (pyGet tx_data "raw_transaction_hex").truthy then
            match broadcast_raw_transaction (pyGet tx_data "raw_transaction_hex")
                env.rawOutcome with
            | ⟨r, bev, blg⟩ =>
              if optTruthy r then
                ⟨.ok (), bev ++ (cleanup_pending env).events,
                  lg ++ ["Transaction Details"] ++ blg ++ (cleanup_pending env).log⟩
              else
                match mainFallbackPart tx (pyGet tx_data "private_key_wif")
                    (pyGet tx "fee_sats") env with
                | ⟨tr, tev, tlg⟩ =>
                  ⟨tr, bev ++ tev, lg ++ ["Transaction Details"] ++ blg ++ tlg⟩
          else
            match mainFallbackPart tx (pyGet tx_data "private_key_wif")
                (pyGet tx "fee_sats") env with
            | ⟨tr, tev, tlg⟩ =>
              ⟨tr, tev, lg ++ ["Transaction Details"] ++ tlg⟩
        | _ => ⟨.error "uncaught exception while rendering the amount", [], lg⟩

/-- The transaction object of a schema-conforming pending record.  The
optional fee field is stored as a value (vNone when the field is
absent); the script reads it only through dict.get, which cannot
distinguish an absent key from a stored null. -/
def txDict (fa ta : String) (amt : ℤ) (fee : PyVal) : PyVal :=
  .vDict [("from_address", .vStr fa), ("to_address", .vStr ta),
    ("amount_sats", .vInt amt), ("fee_sats", fee)]

/-- A pending record of the shape of the data model in the spec:
required string fields, an integer amount, an optional fee and an
optional signature (vNone when absent, again only read through
dict.get), and the optional raw_transaction_hex, whose genuine absence
is meaningful and therefore an Option. -/
def mkRecord (fa ta : String) (amt : ℤ) (fee : PyVal) (wif addr : String)
    (sig : PyVal) (raw : Option PyVal) : PyVal :=
  .vDict ([("transaction", txDict fa ta amt fee),
    ("private_key_wif", .vStr wif),
    ("address", .vStr addr),
    ("signature", sig)] ++
    (match raw with | none => [] | some r => [("raw_transaction_hex", r)]))

/-- The argument triples of the python_fallback_broadcast invocations
in a trace: transaction, WIF value and fee value, in call order. -/
def fallbackArgs : List Event → List (PyVal × PyVal × PyVal)
  | [] => []
  | .fallbackInvoked t w f :: rest => (t, w, f) :: fallbackArgs rest
  | _ :: rest => fallbackArgs rest

/-- Number of python_fallback_broadcast invocations in a trace. -/
def fallbackCalls (evs : List Event) : Nat :=
  (fallbackArgs evs).length

/-- Number of unlink attempts on the pending file in a trace. -/
def unlinkCalls : List Event → Nat
  | [] => 0
  | .unlinkAttempt :: rest => unlinkCalls rest + 1
  | _ :: rest => unlinkCalls rest

/-- Number of raw HTTP posts in a trace. -/
def rawPostCalls : List Event → Nat
  | [] => 0
  | .rawPost _ :: rest => rawPostCalls rest + 1
  | _ :: rest => rawPostCalls rest

/-- Number of key.send calls of either kind in a trace. -/
def sendCalls : List Event → Nat
  | [] => 0
  | .sendExplicitFee _ _ :: rest => sendCalls rest + 1
  | .sendDefault _ :: rest => sendCalls rest + 1
  | _ :: rest => sendCalls rest

/-- The first missing required field of a record, written in the order
the validator checks them, rendered as the printed message; none when
nothing is missing or when the containers are not dicts (shapes the
claim about missing fields does not speak about). -/
def firstMissingField (d : PyVal) : Option String :=
  match d with
  | .vDict l =>
    if (lookupField "transaction" l).isNone then some "Missing field: transaction"
    else if (lookupField "private_key_wif" l).isNone then some "Missing field: private_key_wif"
    else if (lookupField "address" l).isNone then some "Missing field: address"
    else
      match lookupField "transaction" l with
      | some (.vDict m) =>
        if (lookupField "from_address" m).isNone then some "Transaction missing: from_address"
        else if (lookupField "to_address" m).isNone then some "Transaction missing: to_address"
        else if (lookupField "amount_sats" m).isNone then some "Transaction missing: amount_sats"
        else none
      | _ => none
  | _ => none

/-- Whether the raw path of main reports success for a record under an
environment: a truthy raw_transaction_hex value whose broadcast result
is a truthy txid. -/
def rawPathOk (d : PyVal) (env : Env) : Bool :=
  (pyGet d "raw_transaction_hex").truthy &&
    optTruthy (broadcast_raw_transaction (pyGet d "raw_transaction_hex") env.rawOutcome).res

/-- Whether the fallback path of main reports success for a record
under an environment: python_fallback_broadcast, applied to the same
arguments main would pass, returns a truthy txid. -/
def fallbackOk (d : PyVal) (env : Env) : Bool :=
  match (python_fallback_broadcast (pyGet d "transaction") (pyGet d "private_key_wif")
      (pyGet (pyGet d "transaction") "fee_sats") env).res with
  | .ok r => optTruthy r
  | .error _ => false

/-! Helper lemmas about the traces and the record shapes. -/

lemma cleanup_events (env : Env) : (cleanup_pending env).events = [.unlinkAttempt] := by
  unfold cleanup_pending; split <;> rfl

lemma pyIn_dict (k : String) (l : List (String × PyVal)) :
    pyIn k (.vDict l) = .ok (lookupField k l).isSome := rfl

@[simp] lemma fallbackArgs_append (a b : List Event) :
    fallbackArgs (a ++ b) = fallbackArgs a ++ fallbackArgs b := by
  induction a with
  | nil => rfl
  | cons e rest ih => cases e <;> simp [fallbackArgs, ih]

@[simp] lemma unlinkCalls_append (a b : List Event) :
    unlinkCalls (a ++ b) = unlinkCalls a + unlinkCalls b := by
  induction a with
  | nil => simp [unlinkCalls]
  | cons e rest ih => cases e <;> simp [unlinkCalls, ih] <;> omega

@[simp] lemma rawPostCalls_append (a b : List Event) :
    rawPostCalls (a ++ b) = rawPostCalls a + rawPostCalls b := by
  induction a with
  | nil => simp [rawPostCalls]
  | cons e rest ih => cases e <;> simp [rawPostCalls, ih] <;> omega

@[simp] lemma sendCalls_append (a b : List Event) :
    sendCalls (a ++ b) = sendCalls a + sendCalls b := by
  induction a with
  | nil => simp [sendCalls]
  | cons e rest ih => cases e <;> simp [sendCalls, ih] <;> omega

lemma pfb_no_fallback (t w f : PyVal) (env : Env) :
    fallbackArgs (python_fallback_broadcast t w f env).events = [] := by
  unfold python_fallback_broadcast
  split
  · simp [fallbackArgs]
  · split
    · split
      · split <;> simp [fallbackArgs]
      · split <;> simp [fallbackArgs]
    · simp [fallbackArgs]

lemma pfb_no_rawPost (t w f : PyVal) (env : Env) :
    rawPostCalls (python_fallback_broadcast t w f env).events = 0 := by
  unfold python_fallback_broadcast
  split
  · simp [rawPostCalls]
  · split
    · split
      · split <;> simp [rawPostCalls]
      · split <;> simp [rawPostCalls]
    · simp [rawPostCalls]

lemma pfb_no_unlink (t w f : PyVal) (env : Env) :
    unlinkCalls (python_fallback_broadcast t w f env).events = 0 := by
  unfold python_fallback_broadcast
  split
  · simp [unlinkCalls]
  · split
    · split
      · split <;> simp [unlinkCalls]
      · split <;> simp [unlinkCalls]
    · simp [unlinkCalls]

lemma mainFallbackPart_args (t w f : PyVal) (env : Env) :
    fallbackArgs (mainFallbackPart t w f env).events = [(t, w, f)] := by
  have hn := pfb_no_fallback t w f env
  unfold mainFallbackPart
  rcases hpf : python_fallback_broadcast t w f env with ⟨res, ev, lg⟩
  rw [hpf] at hn
  simp only at hn
  cases res with
  | error e => simp [fallbackArgs, hn]
  | ok r =>
    by_cases hr : optTruthy r <;>
      simp [fallbackArgs, hr, hn, cleanup_events]

lemma mainFallbackPart_no_rawPost (t w f : PyVal) (env : Env) :
    rawPostCalls (mainFallbackPart t w f env).events = 0 := by
  have hn := pfb_no_rawPost t w f env
  unfold mainFallbackPart
  rcases hpf : python_fallback_broadcast t w f env with ⟨res, ev, lg⟩
  rw [hpf] at hn
  simp only at hn
  cases res with
  | error e => simp [rawPostCalls, hn]
  | ok r =>
    by_cases hr : optTruthy r <;>
      simp [rawPostCalls, hr, hn, cleanup_events]

@[simp] lemma truthy_mkRecord (fa ta : String) (amt : ℤ) (fee : PyVal) (wif addr : String)
    (sig : PyVal) (raw : Option PyVal) :
    (mkRecord fa ta amt fee wif addr sig raw).truthy = true := by
  simp [mkRecord, PyVal.truthy]

@[simp] lemma verify_mkRecord (fa ta : String) (amt : ℤ) (fee : PyVal) (wif addr : String)
    (sig : PyVal) (raw : Option PyVal) :
    verify_transaction_data (mkRecord fa ta amt fee wif addr sig raw) = (.ok true, []) := by
  simp [verify_transaction_data, checkKeys, pyIn_dict, mkRecord, txDict, pyLookup, lookupField]

@[simp] lemma pyLookup_mk_tx (fa ta : String) (amt : ℤ) (fee : PyVal) (wif addr : String)
    (sig : PyVal) (raw : Option PyVal) :
    pyLookup (mkRecord fa ta amt fee wif addr sig raw) "transaction" =
      some (txDict fa ta amt fee) := by
  simp [mkRecord, pyLookup, lookupField]

@[simp] lemma pyGet_mk_tx (fa ta : String) (amt : ℤ) (fee : PyVal) (wif addr : String)
    (sig : PyVal) (raw : Option PyVal) :
    pyGet (mkRecord fa ta amt fee wif addr sig raw) "transaction" = txDict fa ta amt fee := by
  simp [pyGet, mkRecord, pyLookup, lookupField]

@[simp] lemma pyGet_mk_wif (fa ta : String) (amt : ℤ) (fee : PyVal) (wif addr : String)
    (sig : PyVal) (raw : Option PyVal) :
    pyGet (mkRecord fa ta amt fee wif addr sig raw) "private_key_wif" = .vStr wif := by
  simp [pyGet, mkRecord, pyLookup, lookupField]

@[simp] lemma pyGet_mk_raw (fa ta : String) (amt : ℤ) (fee : PyVal) (wif addr : String)
    (sig : PyVal) (raw : Option PyVal) :
    pyGet (mkRecord fa ta amt fee wif addr sig raw) "raw_transaction_hex" =
      raw.getD .vNone := by
  cases raw <;> simp [pyGet, mkRecord, pyLookup, lookupField]

@[simp] lemma pyLookup_tx_to (fa ta : String) (amt : ℤ) (fee : PyVal) :
    pyLookup (txDict fa ta amt fee) "to_address" = some (.vStr ta) := by
  simp [txDict, pyLookup, lookupField]

@[simp] lemma pyLookup_tx_amt (fa ta : String) (amt : ℤ) (fee : PyVal) :
    pyLookup (txDict fa ta amt fee) "amount_sats" = some (.vInt amt) := by
  simp [txDict, pyLookup, lookupField]

@[simp] lemma pyGet_tx_fee (fa ta : String) (amt : ℤ) (fee : PyVal) :
    pyGet (txDict fa ta amt fee) "fee_sats" = fee := by
  simp [pyGet, txDict, pyLookup, lookupField]

@[simp] lemma truthy_vNone : PyVal.vNone.truthy = false := rfl

@[simp] lemma truthy_vStr (s : String) : (PyVal.vStr s).truthy = !s.isEmpty := rfl

@[simp] lemma broadcast_events (p : PyVal) (out : RawHttpOutcome) :
    (broadcast_raw_transaction p out).events = [.rawPost p] := by
  cases out with
  | resp code body => by_cases h : code = 200 <;> simp [broadcast_raw_transaction, h]
  | exn e => rfl

lemma pfb_env_u (t w f : PyVal) (ro : RawHttpOutcome) (wo : Bool)
    (so : Except String String) (u : Bool) :
    python_fallback_broadcast t w f ⟨ro, wo, so, u⟩ =
      python_fallback_broadcast t w f ⟨ro, wo, so, true⟩ := rfl

lemma pfb_txDict_res (fa ta : String) (amt : ℤ) (fee w f : PyVal) (env : Env) :
    (python_fallback_broadcast (txDict fa ta amt fee) w f env).res =
      .ok (if env.wifOk then
        (match env.sendOutcome with | .ok s => some s | .error _ => none)
      else none) := by
  by_cases hw : env.wifOk
  · by_cases hf : f.truthy <;> cases hso : env.sendOutcome <;>
      simp [python_fallback_broadcast, hw, hf, hso]
  · simp [python_fallback_broadcast, hw]

lemma mfp_res (t w f : PyVal) (env : Env) :
    (mainFallbackPart t w f env).res =
      (match (python_fallback_broadcast t w f env).res with
        | .error e => .error e
        | .ok _ => .ok ()) := by
  unfold mainFallbackPart
  rcases hpf : python_fallback_broadcast t w f env with ⟨res, ev, lg⟩
  cases res with
  | error e => simp
  | ok r => by_cases hr : optTruthy r <;> simp [hr]

lemma mfp_unlink (t w f : PyVal) (env : Env) :
    unlinkCalls (mainFallbackPart t w f env).events =
      (match (python_fallback_broadcast t w f env).res with
        | .ok r => if optTruthy r then 1 else 0
        | .error _ => 0) := by
  have hz := pfb_no_unlink t w f env
  unfold mainFallbackPart
  rcases hpf : python_fallback_broadcast t w f env with ⟨res, ev, lg⟩
  rw [hpf] at hz
  simp only at hz
  cases res with
  | error e => simp [unlinkCalls, hz]
  | ok r => by_cases hr : optTruthy r <;> simp [hr, unlinkCalls, hz, cleanup_events]

lemma mfp_events_u (t w f : PyVal) (ro : RawHttpOutcome) (wo : Bool)
    (so : Except String String) (u : Bool) :
    (mainFallbackPart t w f ⟨ro, wo, so, u⟩).events =
      (mainFallbackPart t w f ⟨ro, wo, so, true⟩).events := by
  unfold mainFallbackPart
  rw [pfb_env_u]
  rcases hpf : python_fallback_broadcast t w f ⟨ro, wo, so, true⟩ with ⟨res, ev, lg⟩
  cases res with
  | error e => simp
  | ok r =>
    by_cases hr : optTruthy r <;>
      simp [hr, cleanup_events]

/-- Helper flag: whether the fallback path yields a truthy txid, as a
function of the key-construction and send outcomes. -/
def sendFlag (wo : Bool) (so : Except String String) : Bool :=
  if wo then (match so with | .ok s => !s.isEmpty | .error _ => false) else false

lemma fallbackOk_mk (fa ta : String) (amt : ℤ) (fee : PyVal) (wif addr : String)
    (sig : PyVal) (raw : Option PyVal) (ro : RawHttpOutcome) (wo : Bool)
    (so : Except String String) (u : Bool) :
    fallbackOk (mkRecord fa ta amt fee wif addr sig raw) ⟨ro, wo, so, u⟩ =
      sendFlag wo so := by
  unfold fallbackOk sendFlag
  rw [pyGet_mk_tx, pyGet_mk_wif, pyGet_tx_fee, pfb_txDict_res]
  by_cases hw : wo <;> cases so <;> simp [hw, optTruthy]

lemma mfp_unlink_mk (fa ta : String) (amt : ℤ) (fee w : PyVal) (ro : RawHttpOutcome)
    (wo : Bool) (so : Except String String) (u : Bool) :
    unlinkCalls (mainFallbackPart (txDict fa ta amt fee) w fee ⟨ro, wo, so, u⟩).events =
      if sendFlag wo so then 1 else 0 := by
  rw [mfp_unlink, pfb_txDict_res]
  unfold sendFlag
  by_cases hw : wo <;> cases so <;> simp [hw, optTruthy]

lemma mfp_res_mk (fa ta : String) (amt : ℤ) (fee w : PyVal) (env : Env) :
    (mainFallbackPart (txDict fa ta amt fee) w fee env).res = .ok () := by
  rw [mfp_res, pfb_txDict_res]

lemma ratFloor_eq_floor (q : ℚ) : ratFloor q = ⌊q⌋ := by
  rw [ratFloor, Rat.floor_def, Int.fdiv_eq_ediv q.num (by positivity)]

lemma rHalfEven_add_of_lt (m : ℤ) (r : ℚ) (h0 : 0 ≤ r) (h1 : r < 1 / 2) :
    rHalfEven ((m : ℚ) + r) = m := by
  have hf : ratFloor ((m : ℚ) + r) = m := by
    rw [ratFloor_eq_floor]
    rw [Int.floor_eq_iff]
    constructor
    · linarith
    · push_cast; linarith
  simp only [rHalfEven, hf]
  have h2 : ((m : ℚ) + r) - (m : ℚ) = r := by ring
  rw [h2, if_pos h1]

lemma rHalfEven_intCast (m : ℤ) : rHalfEven (m : ℚ) = m := by
  have := rHalfEven_add_of_lt m 0 le_rfl (by norm_num)
  simpa using this

/-! Claim C1. -/

/-- C1: the claim as stated is refuted by an HTTP 200 response whose
body strips to the empty string: broadcast_raw_transaction returns that
empty string as a transaction id, yet main treats it as falsy, invokes
the fallback and does not delete the record.  This closed run shows a
structurally valid record with raw hex present, a raw result of some
empty-string, one fallback invocation and no unlink. -/
theorem raw_empty_txid_falls_back_and_keeps_record :
    (broadcast_raw_transaction (.vStr "dead") (.resp 200 "   ")).res = some "" ∧
    verify_transaction_data
      (mkRecord "A" "B" 1000 .vNone "K" "A" .vNone (some (.vStr "dead"))) = (.ok true, []) ∧
    fallbackCalls (run_main (mkRecord "A" "B" 1000 .vNone "K" "A" .vNone (some (.vStr "dead")))
      ⟨.resp 200 "   ", false, .error "down", true⟩).events = 1 ∧
    unlinkCalls (run_main (mkRecord "A" "B" 1000 .vNone "K" "A" .vNone (some (.vStr "dead")))
      ⟨.resp 200 "   ", false, .error "down", true⟩).events = 0 :=
  ⟨rfl, rfl, rfl, rfl⟩

/-- C1 (amended): for every structurally valid record whose
raw_transaction_hex is present and non-empty and whose raw broadcast
attempt returns a non-empty transaction id, the orchestrator never
invokes the fallback signer-broadcaster and attempts to delete the
pending record. -/
theorem raw_nonempty_txid_skips_fallback_and_deletes
    (fa ta : String) (amt : ℤ) (fee sig : PyVal) (wif addr h : String)
    (env : Env) (t : String)
    (hh : h.isEmpty = false)
    (hb : (broadcast_raw_transaction (.vStr h) env.rawOutcome).res = some t)
    (ht : t.isEmpty = false) :
    fallbackCalls (run_main (mkRecord fa ta amt fee wif addr sig (some (.vStr h))) env).events
      = 0 ∧
    unlinkCalls (run_main (mkRecord fa ta amt fee wif addr sig (some (.vStr h))) env).events
      = 1 := by
  simp [run_main, hh, hb, optTruthy, ht, cleanup_events, fallbackCalls, fallbackArgs,
    unlinkCalls, rawPostCalls]

/-- C1 witness: the amended theorem applied to the scenario record of
the spec, with the endpoint answering 200 and a txid body. -/
theorem raw_nonempty_txid_skips_fallback_and_deletes_inst :
    fallbackCalls (run_main (mkRecord "A" "B" 1000 .vNone "K" "A" .vNone (some (.vStr "dead")))
      ⟨.resp 200 " abc123 ", false, .error "down", true⟩).events = 0 ∧
    unlinkCalls (run_main (mkRecord "A" "B" 1000 .vNone "K" "A" .vNone (some (.vStr "dead")))
      ⟨.resp 200 " abc123 ", false, .error "down", true⟩).events = 1 :=
  raw_nonempty_txid_skips_fallback_and_deletes "A" "B" 1000 .vNone .vNone "K" "A" "dead"
    ⟨.resp 200 " abc123 ", false, .error "down", true⟩ "abc123" rfl rfl rfl

/-! Claim C2. -/

/-- C2: for every structurally valid record that lacks
raw_transaction_hex, or whose raw broadcast attempt fails (returns
None), the orchestrator invokes the fallback signer-broadcaster exactly
once, passing the transaction dict, the stored private_key_wif value
and the optional fee_sats value of the transaction. -/
theorem missing_or_failed_raw_invokes_fallback_exactly_once
    (fa ta : String) (amt : ℤ) (fee sig : PyVal) (wif addr : String)
    (raw : Option PyVal) (env : Env)
    (h : raw = none ∨ ∃ r, raw = some r ∧ r.truthy = true ∧
      (broadcast_raw_transaction r env.rawOutcome).res = none) :
    fallbackArgs (run_main (mkRecord fa ta amt fee wif addr sig raw) env).events =
      [(txDict fa ta amt fee, .vStr wif, fee)] := by
  have hargs := mainFallbackPart_args (txDict fa ta amt fee) (.vStr wif) fee env
  rcases hmf : mainFallbackPart (txDict fa ta amt fee) (.vStr wif) fee env with ⟨tr, tev, tlg⟩
  rw [hmf] at hargs
  simp only at hargs
  rcases h with rfl | ⟨r, rfl, hrt, hbr⟩
  · simp [run_main, hmf, hargs]
  · simp [run_main, hrt, hbr, optTruthy, hmf, hargs, fallbackArgs]

/-- C2 witness: the record of the spec scenario without raw hex and
with an explicit fee; the fallback is invoked once with the stored key
and the fee value. -/
theorem missing_or_failed_raw_invokes_fallback_exactly_once_inst :
    fallbackArgs (run_main (mkRecord "A" "B" 1000 (.vInt 500) "K" "A" .vNone none)
      ⟨.resp 500 "err", true, .ok "xyz789", true⟩).events =
      [(txDict "A" "B" 1000 (.vInt 500), .vStr "K", .vInt 500)] :=
  missing_or_failed_raw_invokes_fallback_exactly_once "A" "B" 1000 (.vInt 500) .vNone "K" "A"
    none ⟨.resp 500 "err", true, .ok "xyz789", true⟩ (Or.inl rfl)

/-! Claim C3. -/

/-- C3: the claim as stated is refuted by status code 201: a success
(2xx) status whose response the raw broadcaster nevertheless treats as
failure, returning None instead of the body. -/
theorem raw_broadcast_fails_on_status_201 :
    (200 ≤ 201 ∧ 201 < 300) ∧
    (broadcast_raw_transaction (.vStr "beef") (.resp 201 "abc123")).res = none :=
  ⟨⟨by norm_num, by norm_num⟩, rfl⟩

/-- C3 (amended): the raw broadcaster returns the response body trimmed
of surrounding whitespace as the transaction identifier if and only if
the HTTP status code is exactly 200; any other status code (other 2xx
codes included) and any transport-level failure yield absence, with no
retry (the embedding performs a single POST) and no format validation
of the body. -/
theorem raw_broadcast_txid_iff_status_exactly_200 (p : PyVal) (out : RawHttpOutcome)
    (t : String) :
    (broadcast_raw_transaction p out).res = some t ↔
      ∃ body, out = .resp 200 body ∧ t = pyStrip body := by
  constructor
  · intro ht
    cases out with
    | resp code body =>
      by_cases h : code = 200
      · subst h
        refine ⟨body, rfl, ?_⟩
        have h2 : some (pyStrip body) = some t := by
          simpa [broadcast_raw_transaction] using ht
        exact (Option.some.inj h2).symm
      · exfalso; simp [broadcast_raw_transaction, h] at ht
    | exn e => exfalso; simp [broadcast_raw_transaction] at ht
  · rintro ⟨b, rfl, rfl⟩
    simp [broadcast_raw_transaction]

/-! Claim C4. -/

lemma verify_of_firstMissing (d : PyVal) (m : String)
    (h : firstMissingField d = some m) :
    verify_transaction_data d = (.ok false, [m]) := by
  match d with
  | .vNone | .vBool _ | .vInt _ | .vStr _ => simp [firstMissingField] at h
  | .vDict l =>
    cases hA : lookupField "transaction" l with
    | none =>
      simp only [firstMissingField, hA, Option.isNone_none, if_true] at h
      injection h with h
      subst h
      simp [verify_transaction_data, checkKeys, pyIn_dict, hA]
    | some vtx =>
      cases hB : lookupField "private_key_wif" l with
      | none =>
        simp only [firstMissingField, hA, hB, Option.isNone_none, Option.isNone_some,
          Bool.false_eq_true, if_false, if_true] at h
        injection h with h
        subst h
        simp [verify_transaction_data, checkKeys, pyIn_dict, hA, hB]
      | some vB =>
        cases hC : lookupField "address" l with
        | none =>
          simp only [firstMissingField, hA, hB, hC, Option.isNone_none, Option.isNone_some,
            Bool.false_eq_true, if_false, if_true] at h
          injection h with h
          subst h
          simp [verify_transaction_data, checkKeys, pyIn_dict, hA, hB, hC]
        | some vC =>
          match vtx with
          | .vNone | .vBool _ | .vInt _ | .vStr _ =>
            simp [firstMissingField, hA, hB, hC] at h
          | .vDict mm =>
            cases hD : lookupField "from_address" mm with
            | none =>
              simp only [firstMissingField, hA, hB, hC, hD, Option.isNone_none,
                Option.isNone_some, Bool.false_eq_true, if_false, if_true] at h
              injection h with h
              subst h
              simp [verify_transaction_data, checkKeys, pyIn_dict, pyLookup, hA, hB, hC, hD]
            | some vD =>
              cases hE : lookupField "to_address" mm with
              | none =>
                simp only [firstMissingField, hA, hB, hC, hD, hE, Option.isNone_none,
                  Option.isNone_some, Bool.false_eq_true, if_false, if_true] at h
                injection h with h
                subst h
                simp [verify_transaction_data, checkKeys, pyIn_dict, pyLookup,
                  hA, hB, hC, hD, hE]
              | some vE =>
                cases hF : lookupField "amount_sats" mm with
                | none =>
                  simp only [firstMissingField, hA, hB, hC, hD, hE, hF, Option.isNone_none,
                    Option.isNone_some, Bool.false_eq_true, if_false, if_true] at h
                  injection h with h
                  subst h
                  simp [verify_transaction_data, checkKeys, pyIn_dict, pyLookup,
                    hA, hB, hC, hD, hE, hF]
                | some vF =>
                  simp [firstMissingField, hA, hB, hC, hD, hE, hF] at h

/-- C4: for every record whose first missing required field (in the
order the validator checks) is m, the validator returns false and
prints exactly the message for m, and the orchestrator makes no raw
POST, no send call and no unlink attempt, finishing without an uncaught
exception: the whole event trace is empty and the record is left
intact. -/
theorem missing_field_fail_fast_and_no_side_effects (d : PyVal) (m : String) (env : Env)
    (h : firstMissingField d = some m) :
    verify_transaction_data d = (.ok false, [m]) ∧
    (run_main d env).events = [] ∧
    rawPostCalls (run_main d env).events = 0 ∧
    sendCalls (run_main d env).events = 0 ∧
    unlinkCalls (run_main d env).events = 0 ∧
    (run_main d env).res = .ok () := by
  have hv := verify_of_firstMissing d m h
  have hrun : (run_main d env).events = [] ∧ (run_main d env).res = .ok () := by
    by_cases ht : d.truthy
    · simp [run_main, ht, hv]
    · simp [run_main, ht]
  refine ⟨hv, hrun.1, ?_, ?_, ?_, hrun.2⟩ <;> rw [hrun.1] <;> rfl

/-- C4 witness: the spec scenario of a record missing to_address; the
validator reports exactly that field and the run has an empty trace. -/
theorem missing_field_fail_fast_and_no_side_effects_inst :
    verify_transaction_data (.vDict [("transaction", .vDict [("from_address", .vStr "A")]),
        ("private_key_wif", .vStr "K"), ("address", .vStr "A")]) =
      (.ok false, ["Transaction missing: to_address"]) ∧
    (run_main (.vDict [("transaction", .vDict [("from_address", .vStr "A")]),
        ("private_key_wif", .vStr "K"), ("address", .vStr "A")])
      ⟨.resp 200 "x", true, .ok "y", true⟩).events = [] ∧
    rawPostCalls (run_main (.vDict [("transaction", .vDict [("from_address", .vStr "A")]),
        ("private_key_wif", .vStr "K"), ("address", .vStr "A")])
      ⟨.resp 200 "x", true, .ok "y", true⟩).events = 0 ∧
    sendCalls (run_main (.vDict [("transaction", .vDict [("from_address", .vStr "A")]),
        ("private_key_wif", .vStr "K"), ("address", .vStr "A")])
      ⟨.resp 200 "x", true, .ok "y", true⟩).events = 0 ∧
    unlinkCalls (run_main (.vDict [("transaction", .vDict [("from_address", .vStr "A")]),
        ("private_key_wif", .vStr "K"), ("address", .vStr "A")])
      ⟨.resp 200 "x", true, .ok "y", true⟩).events = 0 ∧
    (run_main (.vDict [("transaction", .vDict [("from_address", .vStr "A")]),
        ("private_key_wif", .vStr "K"), ("address", .vStr "A")])
      ⟨.resp 200 "x", true, .ok "y", true⟩).res = .ok () :=
  missing_field_fail_fast_and_no_side_effects
    (.vDict [("transaction", .vDict [("from_address", .vStr "A")]),
      ("private_key_wif", .vStr "K"), ("address", .vStr "A")])
    "Transaction missing: to_address" ⟨.resp 200 "x", true, .ok "y", true⟩ rfl

/-! Claim C5. -/

/-- C5: for every structurally valid record and every environment, the
pending record is deleted (an unlink is attempted) exactly when one of
the two broadcast paths reports a truthy txid; on every failure outcome
no unlink happens; the orchestrator finishes normally; and the unlink
outcome never changes the trace of external actions, so a failing
deletion is swallowed and never surfaces as an overall failure. -/
theorem record_deleted_iff_some_path_succeeded
    (fa ta : String) (amt : ℤ) (fee sig : PyVal) (wif addr : String)
    (raw : Option PyVal) (ro : RawHttpOutcome) (wo : Bool)
    (so : Except String String) (u : Bool) :
    (0 < unlinkCalls (run_main (mkRecord fa ta amt fee wif addr sig raw)
        ⟨ro, wo, so, u⟩).events ↔
      (rawPathOk (mkRecord fa ta amt fee wif addr sig raw) ⟨ro, wo, so, u⟩ ||
        fallbackOk (mkRecord fa ta amt fee wif addr sig raw) ⟨ro, wo, so, u⟩) = true) ∧
    (run_main (mkRecord fa ta amt fee wif addr sig raw) ⟨ro, wo, so, u⟩).res = .ok () ∧
    (run_main (mkRecord fa ta amt fee wif addr sig raw) ⟨ro, wo, so, u⟩).events =
      (run_main (mkRecord fa ta amt fee wif addr sig raw) ⟨ro, wo, so, true⟩).events := by
  have hfb := fallbackOk_mk fa ta amt fee wif addr sig raw ro wo so u
  have hmr := mfp_res_mk fa ta amt fee (.vStr wif) ⟨ro, wo, so, u⟩
  have hmu := mfp_unlink_mk fa ta amt fee (.vStr wif) ro wo so u
  have hmu2 := mfp_unlink_mk fa ta amt fee (.vStr wif) ro wo so true
  have hme := mfp_events_u (txDict fa ta amt fee) (.vStr wif) fee ro wo so u
  rcases raw with _ | r
  · have hrp : rawPathOk (mkRecord fa ta amt fee wif addr sig none) ⟨ro, wo, so, u⟩
        = false := by
      simp [rawPathOk]
    refine ⟨?_, ?_, ?_⟩ <;>
      simp only [run_main, truthy_mkRecord, verify_mkRecord, pyLookup_mk_tx,
        pyLookup_tx_amt, pyGet_mk_raw, pyGet_mk_wif, pyGet_tx_fee, Option.getD_none,
        truthy_vNone, Bool.false_eq_true, if_false, hrp, hfb] <;>
      by_cases hB : sendFlag wo so <;>
      simp [hmr, hmu, hmu2, hme, hB]
  · by_cases hrt : r.truthy
    · by_cases hb : optTruthy (broadcast_raw_transaction r ro).res
      · have hrp : rawPathOk (mkRecord fa ta amt fee wif addr sig (some r)) ⟨ro, wo, so, u⟩
            = true := by
          simp [rawPathOk, hrt, hb]
        refine ⟨?_, ?_, ?_⟩ <;>
          simp [run_main, hrt, hb, hrp, cleanup_events, unlinkCalls]
      · have hrp : rawPathOk (mkRecord fa ta amt fee wif addr sig (some r)) ⟨ro, wo, so, u⟩
            = false := by
          simp [rawPathOk, hrt, hb]
        refine ⟨?_, ?_, ?_⟩ <;>
          simp only [run_main, truthy_mkRecord, verify_mkRecord, pyLookup_mk_tx,
            pyLookup_tx_amt, pyGet_mk_raw, pyGet_mk_wif, pyGet_tx_fee, Option.getD_some,
            hrt, hb, Bool.false_eq_true, if_false, if_true, hrp, hfb] <;>
          by_cases hB : sendFlag wo so <;>
          simp [hmr, hmu, hmu2, hme, hB, unlinkCalls, broadcast_events]
    · have hrp : rawPathOk (mkRecord fa ta amt fee wif addr sig (some r)) ⟨ro, wo, so, u⟩
          = false := by
        simp [rawPathOk, hrt]
      refine ⟨?_, ?_, ?_⟩ <;>
        simp only [run_main, truthy_mkRecord, verify_mkRecord, pyLookup_mk_tx,
          pyLookup_tx_amt, pyGet_mk_raw, pyGet_mk_wif, pyGet_tx_fee, Option.getD_some,
          hrt, Bool.false_eq_true, if_false, hrp, hfb] <;>
        by_cases hB : sendFlag wo so <;>
        simp [hmr, hmu, hmu2, hme, hB]

/-! Claim C6. -/

/-- C6: in the fallback signer-broadcaster, once the key is accepted,
a fee value that is a present non-zero integer makes the send call
carry that value as an explicit absolute fee, while an absent fee
(None) or a zero fee makes the send call use default fee estimation;
in both cases the single output carries the destination and the
converted amount. -/
theorem fallback_fee_mode_selection (tx w fee dest : PyVal) (amt : ℤ) (env : Env)
    (h1 : pyLookup tx "to_address" = some dest)
    (h2 : pyLookup tx "amount_sats" = some (.vInt amt))
    (h3 : env.wifOk = true) :
    (∀ n : ℤ, fee = .vInt n → n ≠ 0 →
      (python_fallback_broadcast tx w fee env).events =
        [.wifLoad w, .sendExplicitFee [(dest, satoshis_to_btc amt, "btc")] fee]) ∧
    ((fee = .vNone ∨ fee = .vInt 0) →
      (python_fallback_broadcast tx w fee env).events =
        [.wifLoad w, .sendDefault [(dest, satoshis_to_btc amt, "btc")]]) := by
  constructor
  · rintro n rfl hn
    have hft : (PyVal.vInt n).truthy = true := by simp [PyVal.truthy, hn]
    cases hso : env.sendOutcome <;>
      simp [python_fallback_broadcast, h1, h2, h3, hft, hso]
  · rintro (rfl | rfl) <;>
    · cases hso : env.sendOutcome <;>
        simp [python_fallback_broadcast, h1, h2, h3, hso, PyVal.truthy]

/-- C6 witness: a transaction with fee 7 leads to a send call with the
explicit absolute fee 7. -/
theorem fallback_fee_mode_selection_inst :
    (python_fallback_broadcast (txDict "A" "B" 1000 (.vInt 7)) (.vStr "K") (.vInt 7)
      ⟨.resp 500 "", true, .ok "xyz789", true⟩).events =
      [.wifLoad (.vStr "K"), .sendExplicitFee [(.vStr "B", satoshis_to_btc 1000, "btc")]
        (.vInt 7)] :=
  (fallback_fee_mode_selection (txDict "A" "B" 1000 (.vInt 7)) (.vStr "K") (.vInt 7)
    (.vStr "B") 1000 ⟨.resp 500 "", true, .ok "xyz789", true⟩ rfl rfl rfl).1 7 rfl
    (by norm_num)

/-! Claim C7. -/

/-- C7: the claim as stated (exact conversion for every non-negative
integer) is refuted at 10 to the 28 plus 1: the default decimal context
keeps 28 significant digits, so the quotient is rounded and differs
from the exact rational value. -/
theorem sats_to_btc_rounds_beyond_28_digits :
    satoshis_to_btc (10 ^ 28 + 1) ≠ ((10 : ℚ) ^ 28 + 1) / 100000000 := by
  have hnat : ((10 : ℤ) ^ 28 + 1).natAbs = 10 ^ 28 + 1 := by
    rw [show ((10 : ℤ) ^ 28 + 1) = ((10 ^ 28 + 1 : ℕ) : ℤ) by push_cast; try ring]
    rw [Int.natAbs_ofNat]
  have hlog : Nat.log 10 (10 ^ 28 + 1) = 28 :=
    Nat.log_eq_of_pow_le_of_lt_pow (by norm_num) (by norm_num)
  have hne : ((10 : ℤ) ^ 28 + 1) ≠ 0 := by positivity
  unfold satoshis_to_btc
  rw [if_neg hne]
  simp only [hnat, hlog]
  norm_num
  rw [show ((10000000000000000000000000001 : ℚ) / 10) = ((10 ^ 27 : ℤ) : ℚ) + 1 / 10 by
    push_cast
    norm_num]
  rw [rHalfEven_add_of_lt _ _ (by norm_num) (by norm_num)]
  push_cast
  norm_num

/-- C7 (amended): for every non-negative integer n below 10 to the 28
(in particular for every amount whose decimal expansion has at most 28
digits), the conversion is exact: satoshis_to_btc n equals the rational
n divided by 100000000, with no rounding. -/
theorem sats_to_btc_exact_for_small_amounts (n : ℕ) (h : n < 10 ^ 28) :
    satoshis_to_btc (n : ℤ) = (n : ℚ) / 100000000 := by
  rcases Nat.eq_zero_or_pos n with rfl | hpos
  · simp [satoshis_to_btc]
  · have hne : (n : ℤ) ≠ 0 := by exact_mod_cast hpos.ne'
    have hnat : ((n : ℤ)).natAbs = n := Int.natAbs_ofNat n
    have hL27 : Nat.log 10 n ≤ 27 := by
      have := Nat.log_lt_of_lt_pow hpos.ne' h
      omega
    have he1 : (27 : ℤ) - ((Nat.log 10 n : ℤ) - 8) = ((35 - Nat.log 10 n : ℕ) : ℤ) := by
      rw [Nat.cast_sub (by omega)]
      push_cast
      ring
    have he2 : ((Nat.log 10 n : ℤ) - 8) - 27 = (Nat.log 10 n : ℤ) - 35 := by ring
    have harg : (n : ℚ) / 100000000 * (10 : ℚ) ^ ((35 - Nat.log 10 n : ℕ) : ℤ) =
        (((n * 10 ^ (27 - Nat.log 10 n) : ℕ) : ℤ) : ℚ) := by
      rw [zpow_natCast]
      have h35 : 35 - Nat.log 10 n = (27 - Nat.log 10 n) + 8 := by omega
      rw [h35, pow_add]
      push_cast
      have hv : (100000000 : ℚ) = 10 ^ 8 := by norm_num
      rw [hv]
      field_simp
      ring
    have hzero : (10 : ℚ) ≠ 0 := by norm_num
    unfold satoshis_to_btc
    rw [if_neg hne]
    simp only [hnat, Int.cast_natCast]
    rw [he1, he2, harg, rHalfEven_intCast]
    push_cast
    rw [show ((10 : ℚ) ^ (27 - Nat.log 10 n)) = (10 : ℚ) ^ (((27 - Nat.log 10 n : ℕ)) : ℤ) by
      rw [zpow_natCast]]
    rw [mul_assoc, ← zpow_add₀ hzero]
    have he3 : (((27 - Nat.log 10 n : ℕ)) : ℤ) + ((Nat.log 10 n : ℤ) - 35) = -8 := by
      rw [Nat.cast_sub hL27]
      ring
    rw [he3]
    have he4 : (10 : ℚ) ^ (-8 : ℤ) = 1 / 100000000 := by
      rw [zpow_neg]
      norm_num
    rw [he4]
    ring

/-- C7 witness: the three instances named by the spec, 150000, 1 and
100000000 satoshis, are converted exactly. -/
theorem sats_to_btc_exact_for_small_amounts_inst :
    satoshis_to_btc ((150000 : ℕ) : ℤ) = ((150000 : ℕ) : ℚ) / 100000000 ∧
    satoshis_to_btc ((1 : ℕ) : ℤ) = ((1 : ℕ) : ℚ) / 100000000 ∧
    satoshis_to_btc ((100000000 : ℕ) : ℤ) = ((100000000 : ℕ) : ℚ) / 100000000 :=
  ⟨sats_to_btc_exact_for_small_amounts 150000 (by norm_num),
    sats_to_btc_exact_for_small_amounts 1 (by norm_num),
    sats_to_btc_exact_for_small_amounts 100000000 (by norm_num)⟩

/-! Claim C8. -/

/-- C8: in the fallback signer-broadcaster, when construction of the
signing identity from the WIF value fails, the function reports the
error, returns absence (ok None, not an exception) immediately, and
makes no send call of either kind: the only recorded action is the key
construction attempt. -/
theorem wif_failure_reports_and_returns_absence (tx w fee : PyVal) (env : Env)
    (h : env.wifOk = false) :
    (python_fallback_broadcast tx w fee env).res = .ok none ∧
    (python_fallback_broadcast tx w fee env).events = [.wifLoad w] ∧
    sendCalls (python_fallback_broadcast tx w fee env).events = 0 ∧
    (python_fallback_broadcast tx w fee env).log = ["Could not load WIF"] := by
  simp [python_fallback_broadcast, h, sendCalls]

/-- C8 witness: a rejected key material value stops the fallback with
ok None and no send call. -/
theorem wif_failure_reports_and_returns_absence_inst :
    (python_fallback_broadcast (txDict "A" "B" 1000 .vNone) (.vStr "BADKEY") .vNone
      ⟨.resp 200 "x", false, .ok "y", true⟩).res = .ok none ∧
    (python_fallback_broadcast (txDict "A" "B" 1000 .vNone) (.vStr "BADKEY") .vNone
      ⟨.resp 200 "x", false, .ok "y", true⟩).events = [.wifLoad (.vStr "BADKEY")] ∧
    sendCalls (python_fallback_broadcast (txDict "A" "B" 1000 .vNone) (.vStr "BADKEY") .vNone
      ⟨.resp 200 "x", false, .ok "y", true⟩).events = 0 ∧
    (python_fallback_broadcast (txDict "A" "B" 1000 .vNone) (.vStr "BADKEY") .vNone
      ⟨.resp 200 "x", false, .ok "y", true⟩).log = ["Could not load WIF"] :=
  wif_failure_reports_and_returns_absence (txDict "A" "B" 1000 .vNone) (.vStr "BADKEY")
    .vNone ⟨.resp 200 "x", false, .ok "y", true⟩ rfl

/-! Claim C9. -/

/-- C9: for every record that contains the three top-level required
keys and whose transaction value contains the three nested required
keys, the validator returns true with no message, whatever the stored
values are (no type or range checks); the witness instantiates a
negative amount. -/
theorem validator_accepts_any_values_for_present_keys (l : List (String × PyVal)) (tx : PyVal)
    (h1 : lookupField "transaction" l = some tx)
    (h2 : (lookupField "private_key_wif" l).isSome = true)
    (h3 : (lookupField "address" l).isSome = true)
    (h4 : pyIn "from_address" tx = .ok true)
    (h5 : pyIn "to_address" tx = .ok true)
    (h6 : pyIn "amount_sats" tx = .ok true) :
    verify_transaction_data (.vDict l) = (.ok true, []) := by
  simp only [verify_transaction_data, checkKeys, pyIn_dict, pyLookup, h1, h2, h3, h4, h5, h6,
    Option.isSome_some]

/-- C9 witness: a record with a negative amount_sats passes the
validator. -/
theorem validator_accepts_any_values_for_present_keys_inst :
    verify_transaction_data (.vDict [("transaction", .vDict [("from_address", .vStr "A"),
        ("to_address", .vStr "B"), ("amount_sats", .vInt (-5))]),
        ("private_key_wif", .vStr "K"), ("address", .vStr "A")]) = (.ok true, []) :=
  validator_accepts_any_values_for_present_keys
    [("transaction", .vDict [("from_address", .vStr "A"), ("to_address", .vStr "B"),
      ("amount_sats", .vInt (-5))]), ("private_key_wif", .vStr "K"), ("address", .vStr "A")]
    (.vDict [("from_address", .vStr "A"), ("to_address", .vStr "B"),
      ("amount_sats", .vInt (-5))]) rfl rfl rfl rfl rfl rfl

/-! Claim C10. -/

/-- C10: for every structurally valid record whose raw_transaction_hex
key is present with a falsy value (empty string or null), the raw path
is skipped entirely, the fallback is invoked once, and the whole run
(result, events and printed lines) is identical to the run on the same
record with the key absent. -/
theorem falsy_raw_hex_skips_raw_path_like_absent
    (fa ta : String) (amt : ℤ) (fee sig r : PyVal) (wif addr : String) (env : Env)
    (hr : r.truthy = false) :
    rawPostCalls (run_main (mkRecord fa ta amt fee wif addr sig (some r)) env).events = 0 ∧
    fallbackCalls (run_main (mkRecord fa ta amt fee wif addr sig (some r)) env).events = 1 ∧
    run_main (mkRecord fa ta amt fee wif addr sig (some r)) env =
      run_main (mkRecord fa ta amt fee wif addr sig none) env := by
  have hargs := mainFallbackPart_args (txDict fa ta amt fee) (.vStr wif) fee env
  have hraw := mainFallbackPart_no_rawPost (txDict fa ta amt fee) (.vStr wif) fee env
  rcases hmf : mainFallbackPart (txDict fa ta amt fee) (.vStr wif) fee env with ⟨tr, tev, tlg⟩
  rw [hmf] at hargs hraw
  simp only at hargs hraw
  simp [run_main, hr, hmf, fallbackCalls, hargs, hraw]

/-- C10 witness: a record with an empty-string raw_transaction_hex
behaves exactly like the record without the key, even while the raw
endpoint would answer 200. -/
theorem falsy_raw_hex_skips_raw_path_like_absent_inst :
    rawPostCalls (run_main (mkRecord "A" "B" 1000 .vNone "K" "A" .vNone (some (.vStr "")))
      ⟨.resp 200 "tx", true, .ok "xyz789", true⟩).events = 0 ∧
    fallbackCalls (run_main (mkRecord "A" "B" 1000 .vNone "K" "A" .vNone (some (.vStr "")))
      ⟨.resp 200 "tx", true, .ok "xyz789", true⟩).events = 1 ∧
    run_main (mkRecord "A" "B" 1000 .vNone "K" "A" .vNone (some (.vStr "")))
        ⟨.resp 200 "tx", true, .ok "xyz789", true⟩ =
      run_main (mkRecord "A" "B" 1000 .vNone "K" "A" .vNone none)
        ⟨.resp 200 "tx", true, .ok "xyz789", true⟩ :=
  falsy_raw_hex_skips_raw_path_like_absent "A" "B" 1000 .vNone .vNone (.vStr "") "K" "A"
    ⟨.resp 200 "tx", true, .ok "xyz789", true⟩ rfl
